import Mathlib

/-!
Shallow embedding of the Atomist SDM sample `src/lib/sdm/maven.ts`: the push
rule table returned by `configure`, the `mavenSpringBootRun` goal action, and
`readDockerHost`, together with models of the framework collaborators the
source calls (predicate combinators, port allocator, rule resolver, goal
executor) taken from the specification where the framework code is not part
of this repository.
-/

namespace Maven

/-- A repository snapshot at a commit: the set of file names it contains.
This is the only part of a push event the predicates inspect. -/
structure Snapshot where
  files : List String
deriving DecidableEq, Repr

/-- Modelled from the spec (§4.1, §9): the predicate combinators `hasFile`,
`hasFileWithExtension`, `and`, `or`, `not` of `@atomist/sdm` are outside this
repository; the spec asks for a tagged expression tree over a snapshot. -/
inductive Predicate where
  | hasFile (name : String)
  | hasFileWithExtension (ext : String)
  | conj (ps : List Predicate)
  | disj (ps : List Predicate)
  | neg (p : Predicate)
deriving Repr

/-- Modelled from the spec (§4.1): pure, total evaluation of a predicate over
a snapshot.  `hasFile` is exact-name membership, `hasFileWithExtension` a
suffix test; `conj`/`disj` short-circuit via `List.all`/`List.any`. -/
def Predicate.eval (s : Snapshot) : Predicate → Bool
  | .hasFile name => s.files.contains name
  | .hasFileWithExtension ext => s.files.any (fun f => f.endsWith ext)
  | .conj ps => ps.attach.all (fun p => p.val.eval s)
  | .disj ps => ps.attach.any (fun p => p.val.eval s)
  | .neg p => !(p.eval s)
termination_by p => sizeOf p
decreasing_by
  all_goals simp_wf
  · have hmem := List.sizeOf_lt_of_mem p.property
    omega
  · have hmem := List.sizeOf_lt_of_mem p.property
    omega

/-- Modelled from the spec (§4.4): a bind attempt on port `p`.  `free` says
which ports the operating system would let us bind; `st` is the list of
ports this process currently holds bound.  A successful bind adds `p` to the
held list. -/
def bindPort (free : Nat → Bool) (st : List Nat) (p : Nat) : Option (List Nat) :=
  if free p && !(st.contains p) then some (p :: st) else none

/-- Releasing a bound port removes it from the held list. -/
def releasePort (st : List Nat) (p : Nat) : List Nat := st.erase p

/-- Modelled from the spec (§4.4): linear scan over a candidate list,
attempting to bind each port; the first successful bind is released again
and its port returned. -/
def scanFreePortFrom (free : Nat → Bool) (st : List Nat) :
    List Nat → Option (Nat × List Nat)
  | [] => none
  | p :: rest =>
    match bindPort free st p with
    | some st2 => some (p, releasePort st2 p)
    | none => scanFreePortFrom free st rest

/-- Modelled from the spec (§4.4): `scanFreePort(low, high)` of
`@atomist/automation-client` (not part of this repository) scans the ports
from `low` to `high` inclusively and returns the first bindable one,
releasing the bind before returning; `none` models the rejection when no
port in the range is bindable. -/
def scanFreePort (free : Nat → Bool) (st : List Nat) (low high : Nat) :
    Option (Nat × List Nat) :=
  scanFreePortFrom free st (List.range' low (high + 1 - low))

/-- Terminal goal states of the SDM (`SdmGoalState` in the source; only the
terminal ones matter to the embedded fragment). -/
inductive SdmGoalState where
  | success
  | failure
deriving DecidableEq, Repr

/-- The result object a goal action returns (`ExecuteGoalResult`): an
optional state, an optional numeric code and a list of labelled external
URLs.  The source's success branch sets `state` and `externalUrls`; its
catch branch sets only `code`. -/
structure GoalExecResult where
  state : Option SdmGoalState := none
  code : Option Int := none
  externalUrls : List (String × String) := []
deriving DecidableEq, Repr

/-- Modelled from the spec (§4.6): the executor interprets a returned
`GoalExecResult` as terminal failure when it carries an explicit failure
state or a nonzero code, and as success otherwise. -/
def GoalExecResult.terminalState (r : GoalExecResult) : SdmGoalState :=
  match r.state with
  | some st => st
  | none => if r.code.getD 0 = 0 then .success else .failure

/-- The error object `execPromise` rejects with on nonzero exit or spawn
failure: it carries a message with the captured output. -/
structure ExecError where
  message : String
deriving DecidableEq, Repr

/-- The environment a single execution of the `mavenSpringBootRun` action
runs in: the push's commit sha (`goalEvent.sha`), which ports the operating
system lets the port scan bind, and the outcome of the spawned
`mvn spring-boot:run` process (`Except.ok` models exit code 0 with the
captured output, `Except.error` nonzero exit or spawn failure). -/
structure RunEnv where
  sha : String
  free : Nat → Bool
  execOutcome : Except ExecError String

/-- What one execution of the action produced: the returned result, the
chat messages sent over `addressChannels`, and the lines written to the
`ProgressLog`. -/
structure RunOutcome where
  result : GoalExecResult
  messages : List String
  progressLog : List String
deriving DecidableEq, Repr

/-- `%s`-substitution over the format string's characters: every `%s` is
replaced by the argument. -/
def substS (arg : List Char) : List Char → List Char
  | '%' :: 's' :: rest => arg ++ substS arg rest
  | c :: rest => c :: substS arg rest
  | [] => []

/-- `%s`-substitution as performed by `progressLog.write(fmt, arg)`: every
`%s` in the format string is replaced by the argument. -/
def formatS (fmt arg : String) : String :=
  ⟨substS arg.data fmt.data⟩

/-- JavaScript `s.slice(0, n)` on a string: its first `n` characters (all
of them when it is shorter). -/
def jsSliceTo (s : String) (n : Nat) : String :=
  ⟨s.data.take n⟩

/-- Slack `codeLine` rendering from `@atomist/slack-messages`. -/
def codeLine (s : String) : String := "`" ++ s ++ "`"

/-- Slack `url` rendering from `@atomist/slack-messages`. -/
def slackUrl (u : String) : String := "<" ++ u ++ ">"

/-- The application URL the action builds from the allocated port:
`http://localhost:<port>`. -/
def appUrlOf (port : Nat) : String := "http://localhost:" ++ toString port

/-- The text of the success notification the action sends:
`Successfully started <codeLine sha7> at <url appUrl>`. -/
def successText (sha7 appUrl : String) : String :=
  "Successfully started " ++ codeLine sha7 ++ " at " ++ slackUrl appUrl

/-- The `mavenSpringBootRun` goal action (`src/lib/sdm/maven.ts`, lines
116-150).  It scans ports 8000-8100 for a free port (outside the `try`, so
a port-scan rejection escapes the action, modelled as `Except.error`), then
runs `mvn spring-boot:run` inside a `try`: on success it sends a success
message and returns state `success` with one external URL; on process
failure it writes the error message to the progress log and returns
`{ code: 1 }`. -/
def mavenSpringBootRun (env : RunEnv) : Except String RunOutcome :=
  match scanFreePort env.free [] 8000 8100 with
  | none => .error "PortUnavailable"
  | some (port, _) =>
    let appUrl := appUrlOf port
    match env.execOutcome with
    | .ok _ =>
      .ok { result := { state := some .success, code := none,
                        externalUrls := [("http", appUrl)] },
            messages := [successText (jsSliceTo env.sha 7) appUrl],
            progressLog := [] }
    | .error e =>
      .ok { result := { state := none, code := some 1, externalUrls := [] },
            messages := [],
            progressLog := [formatS "Container run command failed: %s" e.message] }

/-- One step of a goal's execution: a pre-action project listener or the
goal's main action, identified by name. -/
inductive GoalStep where
  | listener (name : String)
  | action (name : String)
deriving DecidableEq, Repr

/-- A goal as configured: a display name, pre-action project listeners and
a main action. -/
structure Goal where
  displayName : String
  preListeners : List String
  actionName : String
deriving DecidableEq, Repr

/-- Executing one goal runs its project listeners first, then its main
action. -/
def Goal.steps (g : Goal) : List GoalStep :=
  g.preListeners.map .listener ++ [.action g.actionName]

/-- The build goal (`src/lib/sdm/maven.ts`, lines 109-114): display name
"maven build", builder registration "maven-build", with the `MvnVersion`
project listener attached (the versioning step that runs before the build). -/
def buildGoal : Goal :=
  { displayName := "maven build"
  , preListeners := ["MvnVersion"]
  , actionName := "maven-build" }

/-- The run goal as scheduled: display name "maven spring boot run", no
project listeners, main action the `mavenSpringBootRun` function above. -/
def runGoal : Goal :=
  { displayName := "maven spring boot run"
  , preListeners := []
  , actionName := "maven spring boot run" }

/-- A push rule of the returned configuration: an optional predicate
(absent means the rule matches every push), a goal set, an optional
`dependsOn` reference and the lock flag (`DoNotSetAnyGoals.andLock()`
is the empty goal set with the lock flag set). -/
structure PushRule where
  name : String
  test : Option Predicate
  goals : List Goal
  dependsOn : Option String
  lock : Bool

/-- The `no_goals` rule (`src/lib/sdm/maven.ts`, lines 154-157): matches
when `pom.xml` is absent; its goal set is `DoNotSetAnyGoals.andLock()`,
the empty, locked set. -/
def noGoalsRule : PushRule :=
  { name := "no_goals"
  , test := some (.neg (.hasFile "pom.xml"))
  , goals := []
  , dependsOn := none
  , lock := true }

/-- The `build` rule (`src/lib/sdm/maven.ts`, lines 158-162): no test,
goal set `[buildGoal]`. -/
def buildRule : PushRule :=
  { name := "build"
  , test := none
  , goals := [buildGoal]
  , dependsOn := none
  , lock := false }

/-- The `run` rule (`src/lib/sdm/maven.ts`, lines 163-168): no test,
depends on `build`, goal set `[runGoal]`. -/
def runRule : PushRule :=
  { name := "run"
  , test := none
  , goals := [runGoal]
  , dependsOn := some "build"
  , lock := false }

/-- The rule table returned by `configure` in declaration order. -/
def mavenRules : List PushRule := [noGoalsRule, buildRule, runRule]

/-- A rule matches a push when it has no test or its test evaluates to
true on the push's snapshot. -/
def PushRule.matches (r : PushRule) (s : Snapshot) : Bool :=
  match r.test with
  | none => true
  | some p => p.eval s

/-- Outcome of rule resolution for one push: either a locked rule matched
and its goal set is the terminal action for the push, or the matched,
dependency-satisfied rules in order. -/
inductive Resolution where
  | locked (goals : List Goal)
  | sets (rules : List PushRule)

/-- Modelled from the spec (§4.2): evaluate every rule against the push and
collect the matched subset; if a matched rule carries `lock`, its goal set
is the terminal action (first such rule in declaration order, the
deterministic tie-break); otherwise keep the matched rules whose
`dependsOn`, if any, names a matched rule (a rule depending on a
non-matched rule is dropped).  Declaration order is kept: in this rule
table every `dependsOn` edge points to an earlier rule, so declaration
order is already the topological order with the spec's declaration-order
tie-break. -/
def resolve (rules : List PushRule) (s : Snapshot) : Resolution :=
  let matched := rules.filter (fun r => r.matches s)
  match matched.find? (fun r => r.lock) with
  | some r => .locked r.goals
  | none =>
    let names := matched.map (fun r => r.name)
    .sets (matched.filter (fun r =>
      match r.dependsOn with
      | none => true
      | some d => names.contains d))

/-- Modelled from the spec (§4.3): sequential execution of the resolved
rule sets.  `outcome` gives each rule's overall goal-set result (`true` =
success); `succeeded` accumulates the names of rules whose goal set ended
in success.  A set whose `dependsOn` has not reached success is skipped
entirely: none of its steps appear in the trace. -/
def executeSets (outcome : String → Bool) :
    List PushRule → List String → List GoalStep
  | [], _ => []
  | r :: rest, succeeded =>
    let depOk := match r.dependsOn with
      | none => true
      | some d => succeeded.contains d
    if depOk then
      (r.goals.map Goal.steps).flatten ++
        executeSets outcome rest
          (if outcome r.name then r.name :: succeeded else succeeded)
    else
      executeSets outcome rest succeeded

/-- Modelled from the spec (§4.2-4.3): the trace of goal steps executed for
a push, given each rule's goal-set outcome.  A locked resolution executes
its own (here empty) goal set only. -/
def execute (res : Resolution) (outcome : String → Bool) : List GoalStep :=
  match res with
  | .locked gs => (gs.map Goal.steps).flatten
  | .sets rs => executeSets outcome rs []

/-- Hostname extraction of `new URL(value).hostname`.  Modelled from the
spec (§6): the platform URL parser is outside this repository; the spec
says the accessor "must parse the value as a URL, extracting only the host
component".  For a value of shape `scheme://host[:port][/path]` this is the
part between `://` and the first `:` or `/`; anything else is a parse
error (`new URL` raises).  `splitScheme` drops everything up to and
including the first `://`. -/
def splitScheme : List Char → Option (List Char)
  | ':' :: '/' :: '/' :: rest => some rest
  | _ :: rest => splitScheme rest
  | [] => none

/-- A character belongs to the host component while it is neither the
port separator nor the start of the path. -/
def hostChar (c : Char) : Bool := c ≠ ':' && c ≠ '/'

/-- Hostname extraction of `new URL(value).hostname`, continued: the part
of the value between the first `://` and the following `:` or `/`; a value
with no `://` or an empty remainder is a parse error (`new URL` raises). -/
def urlHostname (s : String) : Except String String :=
  match splitScheme s.data with
  | some rest =>
    if rest.isEmpty then .error ("Invalid URL: " ++ s)
    else .ok ⟨rest.takeWhile hostChar⟩
  | none => .error ("Invalid URL: " ++ s)

/-- `readDockerHost` (`src/lib/sdm/maven.ts`, lines 175-181).  `env` models
`process.env`; a missing or empty variable is falsy in the source's
`if (!dockerhost)` guard.  The declared return type is
`string | undefined`, modelled as `Option String`; `Except.error` models a
raised error. -/
def readDockerHost (env : String → Option String) : Except String (Option String) :=
  match env "DOCKER_HOST" with
  | none => .error "DOCKER_HOST environment variable not set"
  | some v =>
    if v = "" then .error "DOCKER_HOST environment variable not set"
    else (urlHostname v).map (fun h => some h)

/-! ## Helper lemmas -/

theorem formatS_errorLine (m : String) :
    formatS "Container run command failed: %s" m
      = "Container run command failed: " ++ m := by
  have h : formatS "Container run command failed: %s" m
      = ⟨"Container run command failed: ".data ++ (m.data ++ [])⟩ := rfl
  rw [h, List.append_nil]
  rfl

theorem bindPort_eq_some {free : Nat → Bool} {st : List Nat} {p : Nat}
    {st2 : List Nat} (h : bindPort free st p = some st2) :
    st2 = p :: st ∧ free p = true ∧ st.contains p = false := by
  unfold bindPort at h
  by_cases hc : free p && !(st.contains p)
  · rw [if_pos hc] at h
    have hfree := (Bool.and_eq_true _ _).mp hc
    refine ⟨by injection h with h2; exact h2.symm, hfree.1, ?_⟩
    have := hfree.2
    simpa using this
  · rw [if_neg hc] at h
    exact absurd h (by simp)

theorem scanFreePortFrom_range_spec (free : Nat → Bool) (st : List Nat) :
    ∀ (n s p : Nat) (st2 : List Nat),
      scanFreePortFrom free st (List.range' s n) = some (p, st2) →
      s ≤ p ∧ p < s + n ∧ st2 = st ∧ bindPort free st p ≠ none ∧
        ∀ q, s ≤ q → q < p → bindPort free st q = none := by
  intro n
  induction n with
  | zero =>
    intro s p st2 h
    simp [scanFreePortFrom] at h
  | succ n ih =>
    intro s p st2 h
    rw [List.range'_succ] at h
    unfold scanFreePortFrom at h
    cases hb : bindPort free st s with
    | some st3 =>
      rw [hb] at h
      injection h with h1
      injection h1 with hp hst
      subst hp
      obtain ⟨hst3, -, -⟩ := bindPort_eq_some hb
      subst hst3
      refine ⟨Nat.le_refl _, by omega, ?_, by simp [hb], ?_⟩
      · rw [← hst]
        simp [releasePort]
      · intro q hq1 hq2
        omega
    | none =>
      rw [hb] at h
      obtain ⟨h1, h2, h3, h4, h5⟩ := ih (s + 1) p st2 h
      refine ⟨by omega, by omega, h3, h4, ?_⟩
      intro q hq1 hq2
      rcases Nat.eq_or_lt_of_le hq1 with hq | hq
      · rw [← hq]; exact hb
      · exact h5 q hq hq2

/-! ## Claims -/

/-- C7: a successful `scanFreePort(8000, 8100)` returns a port `p` with
`8000 ≤ p ≤ 8100`, namely the first port of the linear low-to-high scan
that can be bound (every candidate `q` with `8000 ≤ q < p` fails to bind),
and the bind is released before returning: the returned held-port state
equals the initial one, so a second bind attempt on `p` immediately after
succeeds. -/
theorem scanFreePort_first_free (free : Nat → Bool) (st : List Nat)
    (p : Nat) (st2 : List Nat)
    (h : scanFreePort free st 8000 8100 = some (p, st2)) :
    8000 ≤ p ∧ p ≤ 8100 ∧ st2 = st ∧ bindPort free st2 p ≠ none ∧
      ∀ q, 8000 ≤ q → q < p → bindPort free st q = none := by
  have hs : scanFreePortFrom free st (List.range' 8000 101) = some (p, st2) := by
    simpa [scanFreePort] using h
  obtain ⟨h1, h2, h3, h4, h5⟩ := scanFreePortFrom_range_spec free st 101 8000 p st2 hs
  subst h3
  exact ⟨h1, by omega, rfl, h4, h5⟩

/-- C7 witness: with ports from 8003 upward free, the scan starting at the
empty held-port state returns 8003 with the state unchanged, every earlier
candidate having failed to bind. -/
theorem scanFreePort_first_free_witness :
    8000 ≤ 8003 ∧ 8003 ≤ 8100 ∧ ([] : List Nat) = [] ∧
      bindPort (fun n => decide (8003 ≤ n)) [] 8003 ≠ none ∧
      ∀ q, 8000 ≤ q → q < 8003 →
        bindPort (fun n => decide (8003 ≤ n)) [] q = none :=
  scanFreePort_first_free (fun n => decide (8003 ≤ n)) [] 8003 [] (by decide)

/-- C8: the `no_goals` rule's predicate `not(hasFile("pom.xml"))`
evaluates — purely and totally, being a plain function over the expression
tree — to `true` exactly when no file named `pom.xml` is in the snapshot. -/
theorem noGoals_predicate_iff (s : Snapshot) :
    Predicate.eval s (.neg (.hasFile "pom.xml")) = true ↔
      "pom.xml" ∉ s.files := by
  simp [Predicate.eval]

/-- C5: `readDockerHost` with `DOCKER_HOST` unset raises an error whose
message names the missing variable, and with `DOCKER_HOST` set to
`tcp://1.2.3.4:2376` returns exactly the host component `1.2.3.4`. -/
theorem readDockerHost_contract :
    readDockerHost (fun _ => none)
        = .error "DOCKER_HOST environment variable not set" ∧
      readDockerHost
        (fun k => if k = "DOCKER_HOST" then some "tcp://1.2.3.4:2376" else none)
        = .ok (some "1.2.3.4") :=
  ⟨rfl, rfl⟩

/-- C10: whenever `readDockerHost` returns normally, the returned value is
a defined string (`isSome`), despite the declared `string | undefined`
return type. -/
theorem readDockerHost_ok_isSome (env : String → Option String)
    (r : Option String) (h : readDockerHost env = .ok r) :
    r.isSome = true := by
  unfold readDockerHost at h
  split at h
  · exact absurd h (by simp)
  · rename_i v heq
    split at h
    · exact absurd h (by simp)
    · cases hu : urlHostname v with
      | error e =>
        rw [hu] at h
        exact absurd h (by simp [Except.map])
      | ok hname =>
        rw [hu] at h
        have hr : some hname = r := by
          simpa [Except.map] using h
        rw [← hr]
        rfl

/-- C10 witness: at a concrete environment carrying
`DOCKER_HOST=tcp://1.2.3.4:2376`, the accessor returns normally and the
returned value is defined. -/
theorem readDockerHost_ok_isSome_witness :
    (some "1.2.3.4" : Option String).isSome = true :=
  readDockerHost_ok_isSome
    (fun k => if k = "DOCKER_HOST" then some "tcp://1.2.3.4:2376" else none)
    (some "1.2.3.4") rfl

/-- C1: when the port scan has allocated a port and the spawned
`mvn spring-boot:run` process fails (nonzero exit or spawn error), the
action returns normally (`Except.ok` — no exception escapes to the
executor) with the result `{ code: 1 }`, whose interpreted terminal state
is failure, and the progress log holds the captured error message. -/
theorem mavenSpringBootRun_process_failure (env : RunEnv) (e : ExecError)
    (port : Nat) (st : List Nat)
    (hscan : scanFreePort env.free [] 8000 8100 = some (port, st))
    (hexec : env.execOutcome = .error e) :
    mavenSpringBootRun env = .ok
      { result := { state := none, code := some 1, externalUrls := [] }
      , messages := []
      , progressLog := ["Container run command failed: " ++ e.message] } ∧
    GoalExecResult.terminalState
      { state := none, code := some 1, externalUrls := [] } = .failure := by
  constructor
  · unfold mavenSpringBootRun
    rw [hscan, hexec, ← formatS_errorLine e.message]
  · decide

/-- C1 witness: a concrete run whose process fails with message `boom`
returns `{ code: 1 }` and logs the message. -/
theorem mavenSpringBootRun_process_failure_witness :
    mavenSpringBootRun
        { sha := "0123456789", free := fun _ => true
        , execOutcome := .error ⟨"boom"⟩ } = .ok
      { result := { state := none, code := some 1, externalUrls := [] }
      , messages := []
      , progressLog := ["Container run command failed: " ++ "boom"] } ∧
    GoalExecResult.terminalState
      { state := none, code := some 1, externalUrls := [] } = .failure :=
  mavenSpringBootRun_process_failure
    { sha := "0123456789", free := fun _ => true, execOutcome := .error ⟨"boom"⟩ }
    ⟨"boom"⟩ 8000 [] rfl rfl

/-- C4: when the port scan has allocated `port` and the spawned process
exits with code 0, the action returns state `success` with exactly one
external URL, whose URL is `http://localhost:<port>` for the allocated
port. -/
theorem mavenSpringBootRun_success_result (env : RunEnv) (output : String)
    (port : Nat) (st : List Nat)
    (hscan : scanFreePort env.free [] 8000 8100 = some (port, st))
    (hexec : env.execOutcome = .ok output) :
    mavenSpringBootRun env = .ok
      { result := { state := some .success, code := none
                  , externalUrls := [("http", appUrlOf port)] }
      , messages := [successText (jsSliceTo env.sha 7) (appUrlOf port)]
      , progressLog := [] } ∧
    [("http", appUrlOf port)].length = 1 ∧
    appUrlOf port = "http://localhost:" ++ toString port := by
  refine ⟨?_, rfl, rfl⟩
  unfold mavenSpringBootRun
  rw [hscan, hexec]

/-- C4 witness: a concrete successful run with every port free returns
success with the single external URL `http://localhost:8000`. -/
theorem mavenSpringBootRun_success_result_witness :
    mavenSpringBootRun
        { sha := "0123456789", free := fun _ => true
        , execOutcome := .ok "output" } = .ok
      { result := { state := some .success, code := none
                  , externalUrls := [("http", appUrlOf 8000)] }
      , messages := [successText (jsSliceTo "0123456789" 7) (appUrlOf 8000)]
      , progressLog := [] } ∧
    [("http", appUrlOf 8000)].length = 1 ∧
    appUrlOf 8000 = "http://localhost:" ++ toString 8000 :=
  mavenSpringBootRun_success_result
    { sha := "0123456789", free := fun _ => true, execOutcome := .ok "output" }
    "output" 8000 [] rfl rfl

/-- C9: on success the notification message sent is exactly
`Successfully started <codeLine of the sha's first 7 characters> at
<url of the app URL>`, and that app URL is the same one returned in the
result's `externalUrls` entry. -/
theorem mavenSpringBootRun_notification (env : RunEnv) (output : String)
    (port : Nat) (st : List Nat)
    (hscan : scanFreePort env.free [] 8000 8100 = some (port, st))
    (hexec : env.execOutcome = .ok output) :
    mavenSpringBootRun env = .ok
      { result := { state := some .success, code := none
                  , externalUrls := [("http", appUrlOf port)] }
      , messages := ["Successfully started " ++ codeLine (jsSliceTo env.sha 7)
                      ++ " at " ++ slackUrl (appUrlOf port)]
      , progressLog := [] } ∧
    codeLine (jsSliceTo env.sha 7) = "`" ++ jsSliceTo env.sha 7 ++ "`" ∧
    slackUrl (appUrlOf port) = "<" ++ appUrlOf port ++ ">" ∧
    jsSliceTo env.sha 7 = ⟨env.sha.data.take 7⟩ := by
  refine ⟨?_, rfl, rfl, rfl⟩
  unfold mavenSpringBootRun
  rw [hscan, hexec]
  rfl

/-- C9 witness: the concrete success notification carries the first 7
characters of the sha and the returned URL. -/
theorem mavenSpringBootRun_notification_witness :
    mavenSpringBootRun
        { sha := "0123456789", free := fun _ => true
        , execOutcome := .ok "output" } = .ok
      { result := { state := some .success, code := none
                  , externalUrls := [("http", appUrlOf 8000)] }
      , messages := ["Successfully started " ++ codeLine (jsSliceTo "0123456789" 7)
                      ++ " at " ++ slackUrl (appUrlOf 8000)]
      , progressLog := [] } ∧
    codeLine (jsSliceTo "0123456789" 7) = "`" ++ jsSliceTo "0123456789" 7 ++ "`" ∧
    slackUrl (appUrlOf 8000) = "<" ++ appUrlOf 8000 ++ ">" ∧
    jsSliceTo "0123456789" 7 = ⟨"0123456789".data.take 7⟩ :=
  mavenSpringBootRun_notification
    { sha := "0123456789", free := fun _ => true, execOutcome := .ok "output" }
    "output" 8000 [] rfl rfl

/-- C2: for a push whose snapshot has no file named exactly `pom.xml`,
rule resolution yields the empty, locked goal set, and the executed trace
is empty under every outcome assignment: neither the build goal nor the
run goal is ever scheduled. -/
theorem resolve_no_pom_locked_empty (s : Snapshot) (oc : String → Bool)
    (h : s.files.contains "pom.xml" = false) :
    resolve mavenRules s = .locked [] ∧
      execute (resolve mavenRules s) oc = [] := by
  have h2 : "pom.xml" ∉ s.files := by simpa using h
  have hres : resolve mavenRules s = .locked [] := by
    simp [resolve, mavenRules, noGoalsRule, buildRule, runRule,
      PushRule.matches, Predicate.eval, h2, List.find?_cons, List.filter_cons]
  exact ⟨hres, by rw [hres]; rfl⟩

/-- C2 witness: a snapshot holding only `README.md` resolves to the empty,
locked set and executes nothing. -/
theorem resolve_no_pom_locked_empty_witness :
    resolve mavenRules ⟨["README.md"]⟩ = .locked [] ∧
      execute (resolve mavenRules ⟨["README.md"]⟩) (fun _ => true) = [] :=
  resolve_no_pom_locked_empty ⟨["README.md"]⟩ (fun _ => true) (by decide)

/-- C3: whenever the build rule's goal set ends in failure, the run goal's
action is never executed: it does not occur in the executed trace for any
snapshot. -/
theorem run_skipped_on_build_failure (s : Snapshot) (oc : String → Bool)
    (h : oc "build" = false) :
    GoalStep.action "maven spring boot run" ∉
      execute (resolve mavenRules s) oc := by
  cases hc : s.files.contains "pom.xml" with
  | false =>
    have h2 : "pom.xml" ∉ s.files := by simpa using hc
    have hres : resolve mavenRules s = .locked [] := by
      simp [resolve, mavenRules, noGoalsRule, buildRule, runRule,
        PushRule.matches, Predicate.eval, h2, List.find?_cons, List.filter_cons]
    rw [hres]
    simp [execute]
  | true =>
    have h2 : "pom.xml" ∈ s.files := by simpa using hc
    have hres : resolve mavenRules s = .sets [buildRule, runRule] := by
      simp [resolve, mavenRules, noGoalsRule, buildRule, runRule,
        PushRule.matches, Predicate.eval, h2, List.find?_cons, List.filter_cons]
    rw [hres]
    simp [execute, executeSets, buildRule, runRule, buildGoal, runGoal,
      Goal.steps, h]

/-- C3 witness: with `pom.xml` present and the build goal set failing, the
run action is absent from the executed trace. -/
theorem run_skipped_on_build_failure_witness :
    GoalStep.action "maven spring boot run" ∉
      execute (resolve mavenRules ⟨["pom.xml"]⟩) (fun _ => false) :=
  run_skipped_on_build_failure ⟨["pom.xml"]⟩ (fun _ => false) rfl

/-- C6: for a push whose snapshot contains `pom.xml`, resolution yields the
build set followed by the dependent run set; the build goal's execution
runs the `MvnVersion` version listener before its main `maven-build`
action; the run rule depends on `build`; and when the build goal set
succeeds the executed trace is version listener, then build action, then
run action. -/
theorem resolve_pom_build_then_run (s : Snapshot) (oc : String → Bool)
    (h : s.files.contains "pom.xml" = true) (hb : oc "build" = true) :
    resolve mavenRules s = .sets [buildRule, runRule] ∧
      buildGoal.steps = [.listener "MvnVersion", .action "maven-build"] ∧
      runRule.dependsOn = some "build" ∧
      execute (resolve mavenRules s) oc =
        [.listener "MvnVersion", .action "maven-build",
         .action "maven spring boot run"] := by
  have h2 : "pom.xml" ∈ s.files := by simpa using h
  have hres : resolve mavenRules s = .sets [buildRule, runRule] := by
    simp [resolve, mavenRules, noGoalsRule, buildRule, runRule,
      PushRule.matches, Predicate.eval, h2, List.find?_cons, List.filter_cons]
  refine ⟨hres, rfl, rfl, ?_⟩
  rw [hres]
  simp [execute, executeSets, buildRule, runRule, buildGoal, runGoal,
    Goal.steps, hb]

/-- C6 witness: with `pom.xml` present and every goal set succeeding, the
executed trace is version listener, build action, run action. -/
theorem resolve_pom_build_then_run_witness :
    resolve mavenRules ⟨["pom.xml"]⟩ = .sets [buildRule, runRule] ∧
      buildGoal.steps = [.listener "MvnVersion", .action "maven-build"] ∧
      runRule.dependsOn = some "build" ∧
      execute (resolve mavenRules ⟨["pom.xml"]⟩) (fun _ => true) =
        [.listener "MvnVersion", .action "maven-build",
         .action "maven spring boot run"] :=
  resolve_pom_build_then_run ⟨["pom.xml"]⟩ (fun _ => true) (by decide) rfl

end Maven
